import Mathlib

/-!
Verification development for the AI-Shell agentic terminal shell.

This file gives a shallow embedding, in Lean 4, of the core pure logic of the
repository:

* `src/src/ai_shell/context_manager.py` — message metadata, auto-truncation,
  distill / untruncate / prune, id restoration;
* `src/src/ai_shell/app.py` — the multiple-actions protocol-violation handler
  of the turn controller;
* `src/src/ai_shell/commands.py` — the cached-working-directory update logic of
  `execute_command`;
* `src/src/conversation_manager.py` — the persistence operations, with disk
  writes reified as an explicit list of write events;
* `src/src/ai_shell/command_safety.py` — the read-only command classifier,
  including a faithful embedding of Python's `shlex` lexer in posix mode with
  `punctuation_chars=True` (the exact configuration the source uses).

Python strings are modelled as Lean `String` / `List Char`; Python dictionaries
with optional metadata keys are modelled as structures with `Option` fields;
mutation is modelled by explicit state passing; `try/except` is modelled with
`Option`; filesystem and clock effects are modelled by explicit environment
parameters and reified write events.
-/

namespace AIShell

/-! ## Python string helpers -/

/-- Python `str.strip()` / `str.split()` whitespace (the ASCII part; the
source never feeds non-ASCII whitespace to these helpers). -/
def isPyWS (c : Char) : Bool :=
  c = ' ' || c = '\t' || c = '\n' || c = '\r' || c = '\x0b' || c = '\x0c'

/-- Python `str.strip()` with no arguments. -/
def pyStrip (s : String) : String :=
  String.mk (((s.toList.dropWhile isPyWS).reverse.dropWhile isPyWS).reverse)

/-- Auxiliary scanner for Python `str.split()` with no arguments: split on runs
of whitespace, discarding empty fields. `acc` holds the current word reversed. -/
def pySplitAux : List Char → List Char → List String
  | [], acc => if acc.isEmpty then [] else [String.mk acc.reverse]
  | c :: rest, acc =>
    if isPyWS c then
      if acc.isEmpty then pySplitAux rest [] else String.mk acc.reverse :: pySplitAux rest []
    else pySplitAux rest (c :: acc)

/-- Python `str.split()` with no arguments. -/
def pySplit (s : String) : List String := pySplitAux s.toList []

/-- Python `content.split('\n')`: split on every newline, keeping empty
fields; `"".split('\n') == [""]`. `acc` holds the current field reversed. -/
def pySplitNlAux : List Char → List Char → List String
  | [], acc => [String.mk acc.reverse]
  | c :: rest, acc =>
    if c = '\n' then String.mk acc.reverse :: pySplitNlAux rest []
    else pySplitNlAux rest (c :: acc)

/-- Python `content.split('\n')`. -/
def pySplitNl (s : String) : List String := pySplitNlAux s.toList []

/-- Whether `needle` occurs as a contiguous sublist of `haystack`. -/
def listIsInfix (needle : List Char) : List Char → Bool
  | [] => needle.isEmpty
  | c :: rest => needle.isPrefixOf (c :: rest) || listIsInfix needle rest

/-- Whether `needle` occurs as a contiguous substring of `haystack`
(Python `needle in haystack`). -/
def containsSub (haystack needle : String) : Bool :=
  listIsInfix needle.toList haystack.toList

/-- Python `str.lower()` (ASCII; the source only lowercases ASCII markers). -/
def pyLower (s : String) : String := s.toLower

/-! ## Context manager (`src/src/ai_shell/context_manager.py`)

A payload message is a Python dict with keys `role`, `content` and the
optional context-management metadata keys `_msg_id`, `_prunable`, `_state`,
`_original_content`, `_label`.  A dict without metadata is modelled by the
defaults `msgId = none`, `prunable = false`, `state = "normal"`,
`originalContent = none`, `label = ""` (matching the `.get` defaults the
source uses at every read site). -/

structure Msg where
  role : String
  content : String
  msgId : Option Nat := none
  prunable : Bool := false
  state : String := "normal"
  originalContent : Option String := none
  label : String := ""
  deriving Repr, DecidableEq

/-- Chars of `l` after the first occurrence of `pat` (empty when `pat` does
not occur). -/
def afterInfix (pat : List Char) : List Char → List Char
  | [] => []
  | c :: rest =>
    if pat.isPrefixOf (c :: rest) then (c :: rest).drop pat.length
    else afterInfix pat rest

/-- Helper for `_extract_label`: model of
`re.search(r"<marker>\s*(.+?)(?:\n|$)", content)` followed by `.strip()` on the
captured group — find the first occurrence of the marker, skip whitespace,
capture up to the next newline (or end), and strip; `none` when the marker is
absent or nothing follows it. -/
def searchAfterMarker (marker content : String) : Option String :=
  if containsSub content marker then
    let s := afterInfix marker.toList content.toList
    let captured := pyStrip (String.mk ((s.dropWhile isPyWS).takeWhile (fun c => c ≠ '\n')))
    if captured = "" then none else some captured
  else none

/-- Python truncation idiom `if len(s) > n: s = s[:n-3] + "..."`. -/
def truncateWithDots (s : String) (n : Nat) : String :=
  if n < s.length then String.mk (s.toList.take (n - 3)) ++ "..." else s

/-- `ContextManager._extract_label`: derive a short label from a
SYSTEM MESSAGE body by pattern matching. -/
def extractLabel (content : String) : String :=
  if content = "" then "System message"
  else
    match searchAfterMarker "Command executed:" content with
    | some cmd => "Command output: " ++ truncateWithDots cmd 60
    | none =>
    match searchAfterMarker "Web search executed for:" content with
    | some query => "Web search: " ++ truncateWithDots query 60
    | none =>
    match searchAfterMarker "User declined to run the command:" content with
    | some cmd => "User declined: " ++ truncateWithDots cmd 50
    | none =>
    if containsSub content "Task completed" then "Task completion"
    else if containsSub content "Task failed" || containsSub content "task status check failed" then
      "Task failure"
    else if containsSub (pyLower content) "empty response" then "Empty response handling"
    else if containsSub (pyLower content) "not yet complete" then "Task continuation"
    else if containsSub (pyLower content) "multiple" &&
        (containsSub (pyLower content) "commands" || containsSub (pyLower content) "actions") then
      "Multiple actions error"
    else if containsSub content "Web search failed" then
      match searchAfterMarker "failed for query:" content with
      | some query => "Web search failed: " ++ truncateWithDots query 50
      | none => "Web search failed"
    else if containsSub content "Context management" then "Context management confirmation"
    else
      "System message: " ++ pyStrip (String.mk ((content.toList.take 50).map (fun c => if c = '\n' then ' ' else c)))

/-- `ContextManager.assign_metadata`: stamp the next id onto a message, mark it
prunable with state `normal`, and attach a label (caller-supplied or derived
from the content).  The context manager's mutable `_next_id` counter is passed
and returned explicitly. -/
def assignMetadata (nextId : Nat) (m : Msg) (label : Option String) : Msg × Nat :=
  ({ m with
      msgId := some nextId
      prunable := true
      state := "normal"
      originalContent := none
      label := label.getD (extractLabel m.content) }, nextId + 1)

/-- Sequential assignment of metadata to a batch of messages (iterated
`assign_metadata` within one session). -/
def assignMetadataAll (nextId : Nat) : List Msg → List Msg × Nat
  | [] => ([], nextId)
  | m :: rest =>
    let (m2, n2) := assignMetadata nextId m none
    let (rest2, n3) := assignMetadataAll n2 rest
    (m2 :: rest2, n3)

/-- `ContextManager.auto_truncate`: head/tail truncation of long output.
Returns `(content_to_use, was_truncated, original_content)`;
`original_content` is `none` when not truncated.  The `none` arguments take
the defaults `DEFAULT_AUTO_TRUNCATE_THRESHOLD = 10000`,
`DEFAULT_TRUNCATE_HEAD_LINES = 50`, `DEFAULT_TRUNCATE_TAIL_LINES = 50`
from `src/src/ai_shell/constants.py`. -/
def autoTruncate (content : String) (threshold headLines tailLines : Option Nat := none) :
    String × Bool × Option String :=
  let threshold := threshold.getD 10000
  let headLines := headLines.getD 50
  let tailLines := tailLines.getD 50
  if content = "" || content.length ≤ threshold then (content, false, none)
  else
    let lines := pySplitNl content
    let totalLines := lines.length
    if totalLines ≤ headLines + tailLines then (content, false, none)
    else
      let head := lines.take headLines
      -- Python `lines[-tail_lines:]`; a negative-zero slice would mean the
      -- whole list, hence the guard (unreachable with the default 50).
      let tail := if tailLines = 0 then lines else lines.drop (totalLines - tailLines)
      let omitted := totalLines - headLines - tailLines
      let truncated :=
        String.intercalate "\n" head ++
        "\n\n... [" ++ toString omitted ++
        " lines omitted - use context_untruncate to view full output] ...\n\n" ++
        String.intercalate "\n" tail
      (truncated, true, some content)

/-- `ContextManager.distill`: replace a message body with the model's summary.
The source mutates the first message whose `_msg_id` matches and which is
prunable, and returns `(msg_id, label)`; it returns `None` (here: `none`) when
the message is pruned or no message matches, leaving the payload untouched.
The updated payload is returned alongside the result. -/
def distill : List Msg → Nat → String → Option (Nat × String) × List Msg
  | [], _, _ => (none, [])
  | m :: rest, msgId, summary =>
    if m.msgId = some msgId ∧ m.prunable then
      if m.state = "pruned" then (none, m :: rest)
      else
        let orig := if m.originalContent = none then some m.content else m.originalContent
        (some (msgId, m.label),
          { m with
              content := "[DISTILLED] " ++ m.label ++ "\nSummary: " ++ summary
              originalContent := orig
              state := "distilled" } :: rest)
    else
      let (r, rest2) := distill rest msgId summary
      (r, m :: rest2)

/-- `ContextManager.untruncate`: restore the full content of a truncated
message.  Fails (returns `none`, payload untouched) when the matching message
is not in state `truncated`, or its stored original is absent or empty
(Python `if not original`). -/
def untruncate : List Msg → Nat → Option (Nat × String) × List Msg
  | [], _ => (none, [])
  | m :: rest, msgId =>
    if m.msgId = some msgId ∧ m.prunable then
      if m.state ≠ "truncated" then (none, m :: rest)
      else
        match m.originalContent with
        | none => (none, m :: rest)
        | some o =>
          if o = "" then (none, m :: rest)
          else
            (some (msgId, m.label),
              { m with content := o, originalContent := none, state := "normal" } :: rest)
    else
      let (r, rest2) := untruncate rest msgId
      (r, m :: rest2)

/-- `ContextManager.restore_ids_from_saved`: after loading a saved
conversation, the next-id counter becomes `max(existing msg ids, 0) + 1`
(a missing `_msg_id` counts as 0). -/
def restoreIdsFromSaved (payload : List Msg) : Nat :=
  (payload.foldl (fun acc m => max acc (m.msgId.getD 0)) 0) + 1

/-! ## Turn controller: multiple-actions violation handler
(`src/src/ai_shell/app.py`, `_handle_multiple_actions_response`, and
`src/src/ai_shell/chat.py`, `clear_history`)

The relevant mutable state of `AIShellApp` / `ChatManager` /
`ContextManager`: the message payload, the context-manager id counter, and
the `rejudge` / `rejudge_count` flags. -/

structure AppState where
  sysPrompt : String
  payload : List Msg
  ctxNextId : Nat
  rejudge : Bool
  rejudgeCount : Nat
  deriving Repr, DecidableEq

/-- A plain `{"role": "system", "content": ...}` dict (no metadata keys), as
built by `ChatManager.clear_history`. -/
def mkSystemMsg (content : String) : Msg := { role := "system", content := content }

/-- The corrective message text of `_handle_multiple_actions_response`. -/
def multipleActionsMessage (totalActions : Nat) : String :=
  "SYSTEM MESSAGE: You provided " ++ toString totalActions ++
  " action blocks in one response, which is forbidden. You must provide EXACTLY ONE command, search, or context management block per response. Please choose the FIRST action you need to take and provide it alone with explanation."

/-- `AIShellApp._handle_multiple_actions_response`: append one corrective
user-role message (with metadata assigned by the context manager), set
`rejudge`, bump `rejudge_count`; once the count exceeds 3, clear the history
back to just the system prompt (`ChatManager.clear_history`) and reset the
context manager's id counter (`ContextManager.reset`).
(`clear_history` also notifies the conversation store; disk effects are
modelled separately in the conversation-manager section.) -/
def handleMultipleActions (totalActions : Nat) (st : AppState) : AppState :=
  let msg : Msg := { role := "user", content := multipleActionsMessage totalActions }
  let (msg2, nid) := assignMetadata st.ctxNextId msg (some "Multiple actions error")
  let st1 : AppState :=
    { st with
        payload := st.payload ++ [msg2]
        ctxNextId := nid
        rejudge := true
        rejudgeCount := st.rejudgeCount + 1 }
  if 3 < st1.rejudgeCount then
    { st1 with
        payload := [mkSystemMsg st1.sysPrompt]
        ctxNextId := 1
        rejudge := false
        rejudgeCount := 0 }
  else st1

/-! ## PTY executor: cached working directory
(`src/src/ai_shell/commands.py`, `execute_command` / `_set_current_directory`)

Only the evolution of the module-level `_cached_directory` is modelled; pty
I/O is environmental.  `ExecEnv` captures every point where `execute_command`
consults the outside world on the path that can touch the cache:

* `openptyOk` — `pty.openpty()` succeeded (failure returns early);
* `startCwdValid` — `os.path.exists(start_cwd) and os.path.isdir(start_cwd)`
  for the cached directory;
* `osCwd` — `os.getcwd()` of the process (used by the stale-cache fallback);
* `popenOk` — `subprocess.Popen` succeeded (failure returns early, but only
  after the stale-cache fallback has already run);
* `probeResult` — outcome of the secondary
  `bash -c "cd <cwd> && <command> 2>/dev/null && pwd"` probe:
  `none` for timeout / subprocess error, otherwise `(returncode, stdout)`;
* `dirExists` — `os.path.exists` for the probe's reported directory. -/

structure ExecEnv where
  openptyOk : Bool
  startCwdValid : Bool
  osCwd : String
  popenOk : Bool
  probeResult : Option (Int × String)
  dirExists : String → Bool

/-- `DIR_CHANGING_COMMANDS` from `src/src/ai_shell/constants.py`. -/
def dirChangingCommands : List String := ["cd", "pushd", "popd"]

/-- The value of the cached logical working directory after
`execute_command(command)` returns, starting from cache value `cached` in
environment `env`.  Mirrors the control flow of `execute_command`: validation,
pty setup, the stale-cache fallback to `os.getcwd()`, and the
directory-change probe guarded by `command.strip().startswith('sudo')` and by
the whitespace token test against `DIR_CHANGING_COMMANDS`. -/
def executeCommandCwd (command : String) (cached : String) (env : ExecEnv) : String :=
  if pyStrip command = "" then cached
  else if !env.openptyOk then cached
  else
    let cached1 := if env.startCwdValid then cached else env.osCwd
    if !env.popenOk then cached1
    else if !("sudo".toList.isPrefixOf (pyStrip command).toList) then
      let commandWords := pySplit (pyStrip command)
      if commandWords.any (fun w => dirChangingCommands.contains w) then
        match env.probeResult with
        | some (rc, out) =>
          if rc = 0 then
            let finalDir := pyStrip out
            if finalDir ≠ "" ∧ env.dirExists finalDir ∧ finalDir ≠ cached1 then finalDir
            else cached1
          else cached1
        | none => cached1
      else cached1
    else cached1

/-! ## Conversation store (`src/src/conversation_manager.py`)

Disk writes are reified: every operation returns the list of session-file
writes it performs.  Timestamps (`datetime.now()`) are passed in as `now`. -/

structure SessionRec where
  id : String
  startedAt : String
  lastUpdated : String
  payload : List Msg
  originalRequest : String
  status : String
  summary : String
  lastUsed : String
  deriving Repr, DecidableEq

/-- A write of a session file, tagged by its destination in the on-disk
layout (`active.json`, `recent/<id>.json`, `saved/<name>.json`,
`archive/<id>.json`). -/
inductive FileWrite where
  | active (session : SessionRec)
  | recent (filename : String) (session : SessionRec)
  | saved (filename : String) (session : SessionRec)
  | archive (filename : String) (session : SessionRec)
  deriving Repr, DecidableEq

structure ConvMgr where
  incognito : Bool
  autoSaveInterval : Nat
  maxRecent : Nat
  interactionCount : Nat
  session : SessionRec
  deriving Repr, DecidableEq

/-- `ConversationManager.__init__` settings:
`auto_save_interval = conv_settings.get("auto_save_interval", 5)` and
`max_recent = conv_settings.get("max_recent", 10)` (the same defaults as
`DEFAULT_AUTO_SAVE_INTERVAL = 5` and `DEFAULT_MAX_RECENT_CONVERSATIONS = 10`
in `src/src/ai_shell/constants.py`).  A fresh manager starts with
`interaction_count = 0` and an empty active session. -/
def mkConvMgr (cfgAutoSaveInterval cfgMaxRecent : Option Nat)
    (sessionId now : String) : ConvMgr :=
  { incognito := false
    autoSaveInterval := cfgAutoSaveInterval.getD 5
    maxRecent := cfgMaxRecent.getD 10
    interactionCount := 0
    session :=
      { id := sessionId
        startedAt := now
        lastUpdated := now
        payload := []
        originalRequest := ""
        status := "active"
        summary := ""
        lastUsed := now } }

/-- `ConversationManager._get_session_summary`. -/
def sessionSummary (messages : List Msg) : String :=
  if messages.isEmpty then "Empty conversation"
  else
    match messages.find? (fun m => m.role = "user") with
    | some m =>
      if 50 < m.content.length then String.mk (m.content.toList.take 47) ++ "..."
      else m.content
    | none => "System-only conversation"

/-- `ConversationManager._auto_save`: skipped entirely in incognito mode,
otherwise writes the current session to the active file. -/
def autoSave (m : ConvMgr) : List FileWrite :=
  if m.incognito then [] else [.active m.session]

/-- `ConversationManager.update_payload`: refresh the session record, bump
`interaction_count`, and auto-save when the count is a multiple of
`auto_save_interval`. -/
def updatePayload (m : ConvMgr) (payload : List Msg) (originalRequest now : String) :
    ConvMgr × List FileWrite :=
  let s := m.session
  let s :=
    { s with
        payload := payload
        lastUpdated := now
        lastUsed := now
        originalRequest :=
          if originalRequest ≠ "" ∧ s.originalRequest = "" then originalRequest
          else s.originalRequest
        summary := sessionSummary payload }
  let m2 := { m with session := s, interactionCount := m.interactionCount + 1 }
  if m2.interactionCount % m2.autoSaveInterval = 0 then (m2, autoSave m2)
  else (m2, [])

/-- `ConversationManager._move_to_recent`: no write when the payload is empty
or in incognito mode; otherwise writes a copy with status `recent` to the
recent ring.  (`_cleanup_recent` only deletes old files and is omitted: it
never writes a session.)  Triggered by `/clear`, loading another session, and
normal exit. -/
def moveToRecent (m : ConvMgr) (_now : String) : List FileWrite :=
  if m.session.payload.isEmpty then []
  else if m.incognito then []
  else [.recent (m.session.id ++ ".json") { m.session with status := "recent" }]

/-- Python `"".join(c for c in name if c.isalnum() or c in ('-','_',' ')).strip()`
followed by `.replace(' ', '_')` — the filename sanitiser of
`save_conversation` / `load_conversation` / `delete_conversation`. -/
def sanitizeName (name : String) : String :=
  let kept := name.toList.filter (fun c => c.isAlphanum || c = '-' || c = '_' || c = ' ')
  String.mk ((pyStrip (String.mk kept)).toList.map (fun c => if c = ' ' then '_' else c))

/-- `ConversationManager.save_conversation` with an explicit name: returns
`False` with no write in incognito mode or with an empty payload; otherwise
(environment flags: `fileExists` for the name collision, `overwriteConfirm`
for the user's answer) writes `saved/<safe-name>.json`. -/
def saveConversation (m : ConvMgr) (name : String)
    (fileExists overwriteConfirm : Bool) (_now : String) : Bool × List FileWrite :=
  if m.incognito then (false, [])
  else if m.session.payload.isEmpty then (false, [])
  else
    let safeName := sanitizeName name
    if fileExists ∧ ¬overwriteConfirm then (false, [])
    else (true, [.saved (safeName ++ ".json") { m.session with status := "saved" }])

/-- `ConversationManager.archive_conversation`: returns `False` with no write
when the payload is empty; otherwise writes `archive/<session-id>.json` and
starts a fresh session (`_start_new_session`).  Note: unlike `_auto_save`,
`_move_to_recent` and `save_conversation`, this operation has no incognito
guard in the source. -/
def archiveConversation (m : ConvMgr) (newSessionId now : String) :
    Bool × ConvMgr × List FileWrite :=
  if m.session.payload.isEmpty then (false, m, [])
  else
    let write : FileWrite := .archive (m.session.id ++ ".json") { m.session with status := "archived" }
    let fresh :=
      { id := newSessionId
        startedAt := now
        lastUpdated := now
        payload := ([] : List Msg)
        originalRequest := ""
        status := "active"
        summary := ""
        lastUsed := now : SessionRec }
    (true, { m with session := fresh, interactionCount := 0 }, [write])

/-! ## Python `shlex` (as used by `command_safety._tokenize`)

`shlex.shlex(command, posix=True, punctuation_chars=True)` with the library
defaults `whitespace_split=False`, `commenters='#'`, `quotes='\'"'`,
`escape='\\'`, `escapedquotes='"'`.  With `punctuation_chars=True` the
punctuation set is `();<>|&` and the word characters gain `~-./*?=`.
The CPython `read_token` state machine (states: whitespace, word,
punctuation run, quote, escape) is transcribed below as a fused scanner that
produces the whole token list of `list(lexer)`; a raised `ValueError`
("No closing quotation" / "No escaped character") is `none`.  The one-slot
character pushback of the source is realised by re-processing the pushed
character in the whitespace state.  The scanner is given fuel so that it
stays structurally recursive; each step consumes an input character or moves
from a token state to the whitespace state, so `3·n + 8` steps can never be
exhausted on an input of `n` characters. -/

/-- `shlex.whitespace = ' \t\r\n'`. -/
def shlexWhitespace (c : Char) : Bool :=
  c = ' ' || c = '\t' || c = '\r' || c = '\n'

/-- `punctuation_chars = '();<>|&'`. -/
def shlexPunctuation (c : Char) : Bool :=
  c = '(' || c = ')' || c = ';' || c = '<' || c = '>' || c = '|' || c = '&'

/-- `shlex.wordchars` in posix mode with punctuation chars active: ASCII
alphanumerics, `_`, the Latin-1 accented letters (`U+00C0`–`U+00FF` except
`×` and `÷`, plus `ß`), and `~-./*?=`. -/
def shlexWordChar (c : Char) : Bool :=
  c.isAlphanum || c = '_' ||
  (0xC0 ≤ c.toNat && c.toNat ≤ 0xFF && c.toNat ≠ 0xD7 && c.toNat ≠ 0xF7) ||
  c = '~' || c = '-' || c = '.' || c = '/' || c = '*' || c = '?' || c = '='

/-- Effect of `instream.readline()` after a comment character: drop the rest
of the line including the newline. -/
def dropShlexLine (l : List Char) : List Char :=
  (l.dropWhile (fun c => c ≠ '\n')).drop 1

/-- The lexer state: whitespace (`' '`), word (`'a'`, with the accumulated
token and the `quoted` flag), punctuation run (`'c'`), or inside a quote. -/
inductive LexMode where
  | space
  | word (tok : List Char) (quoted : Bool)
  | punct (tok : List Char)
  | quot (q : Char) (tok : List Char)
  deriving Repr, DecidableEq

/-- The fused `read_token` / `list(lexer)` loop.  Returns the token list, or
`none` on a `ValueError`. -/
def shlexLex : Nat → LexMode → List Char → Option (List String)
  | 0, _, _ => none
  | _ + 1, .space, [] => some []
  | n + 1, .space, c :: rest =>
    if shlexWhitespace c then shlexLex n .space rest
    else if c = '#' then shlexLex n .space (dropShlexLine rest)
    else if c = '\\' then
      match rest with
      | [] => none
      | x :: rest2 => shlexLex n (.word [x] false) rest2
    else if shlexWordChar c then shlexLex n (.word [c] false) rest
    else if shlexPunctuation c then shlexLex n (.punct [c]) rest
    else if c = '\'' || c = '"' then shlexLex n (.quot c []) rest
    else (shlexLex n .space rest).map (fun ts => String.mk [c] :: ts)
  | _ + 1, .quot _ _, [] => none
  | n + 1, .quot q tok, c :: rest =>
    if c = q then shlexLex n (.word tok true) rest
    else if q = '"' && c = '\\' then
      match rest with
      | [] => none
      | x :: rest2 =>
        let tok2 := if x ≠ '\\' ∧ x ≠ '"' then tok ++ ['\\', x] else tok ++ [x]
        shlexLex n (.quot q tok2) rest2
    else shlexLex n (.quot q (tok ++ [c])) rest
  | _ + 1, .word tok quoted, [] =>
    if tok ≠ [] ∨ quoted then some [String.mk tok] else some []
  | n + 1, .word tok quoted, c :: rest =>
    if shlexWhitespace c then
      if tok ≠ [] ∨ quoted then (shlexLex n .space rest).map (fun ts => String.mk tok :: ts)
      else shlexLex n .space rest
    else if c = '#' then
      if tok ≠ [] ∨ quoted then
        (shlexLex n .space (dropShlexLine rest)).map (fun ts => String.mk tok :: ts)
      else shlexLex n .space (dropShlexLine rest)
    else if c = '\'' || c = '"' then shlexLex n (.quot c tok) rest
    else if c = '\\' then
      match rest with
      | [] => none
      | x :: rest2 => shlexLex n (.word (tok ++ [x]) quoted) rest2
    else if shlexWordChar c then shlexLex n (.word (tok ++ [c]) quoted) rest
    else
      if tok ≠ [] ∨ quoted then (shlexLex n .space (c :: rest)).map (fun ts => String.mk tok :: ts)
      else shlexLex n .space (c :: rest)
  | _ + 1, .punct tok, [] => some [String.mk tok]
  | n + 1, .punct tok, c :: rest =>
    if shlexWhitespace c then (shlexLex n .space rest).map (fun ts => String.mk tok :: ts)
    else if c = '#' then
      (shlexLex n .space (dropShlexLine rest)).map (fun ts => String.mk tok :: ts)
    else if shlexPunctuation c then shlexLex n (.punct (tok ++ [c])) rest
    else (shlexLex n .space (c :: rest)).map (fun ts => String.mk tok :: ts)

/-- `command_safety._tokenize` on a character list:
`list(shlex.shlex(command, posix=True, punctuation_chars=True))`, with
`none` for a raised `ValueError`. -/
def shlexTokenizeL (c : List Char) : Option (List String) :=
  shlexLex (3 * c.length + 8) .space c

/-- `PIPE_AND_CHAIN_OPERATORS`. -/
def pipeAndChainOperators : List String := ["&&", "||", ";", "|", "|&", "&"]

/-- `COMMAND_STARTERS = PIPE_AND_CHAIN_OPERATORS | {'('}`. -/
def commandStarters : List String := pipeAndChainOperators ++ ["("]

/-- `COMMAND_PREFIXES` (benign command wrappers; `sudo`, `doas`, `nohup` are
deliberately not in this set). -/
def benignCommandWrappers : List String :=
  ["time", "timeout", "nice", "ionice", "env", "stdbuf", "chrt", "taskset"]

/-- `OUTPUT_REDIRECT_OPERATORS`. -/
def outputRedirectOperators : List String := [">", ">>", "&>", "&>>"]

/-- `ALL_REDIRECT_OPERATORS`. -/
def allRedirectOperators : List String :=
  [">", ">>", "<", "<<", "<<<", "&>", "&>>", ">&", "<&"]

/-- The Unicode code-point ranges on which Python `str.isdigit()` is `True`
(Numeric_Type Decimal or Digit; enumerated from CPython 3.11). -/
def pyDigitRanges : List (Nat × Nat) :=
  [ (0x30, 0x39), (0xB2, 0xB3), (0xB9, 0xB9), (0x660, 0x669), (0x6F0, 0x6F9),
   (0x7C0, 0x7C9), (0x966, 0x96F), (0x9E6, 0x9EF), (0xA66, 0xA6F),
   (0xAE6, 0xAEF), (0xB66, 0xB6F), (0xBE6, 0xBEF), (0xC66, 0xC6F),
   (0xCE6, 0xCEF), (0xD66, 0xD6F), (0xDE6, 0xDEF), (0xE50, 0xE59),
   (0xED0, 0xED9), (0xF20, 0xF29), (0x1040, 0x1049), (0x1090, 0x1099),
   (0x1369, 0x1371), (0x17E0, 0x17E9), (0x1810, 0x1819), (0x1946, 0x194F),
   (0x19D0, 0x19DA), (0x1A80, 0x1A89), (0x1A90, 0x1A99), (0x1B50, 0x1B59),
   (0x1BB0, 0x1BB9), (0x1C40, 0x1C49), (0x1C50, 0x1C59), (0x2070, 0x2070),
   (0x2074, 0x2079), (0x2080, 0x2089), (0x2460, 0x2468), (0x2474, 0x247C),
   (0x2488, 0x2490), (0x24EA, 0x24EA), (0x24F5, 0x24FD), (0x24FF, 0x24FF),
   (0x2776, 0x277E), (0x2780, 0x2788), (0x278A, 0x2792), (0xA620, 0xA629),
   (0xA8D0, 0xA8D9), (0xA900, 0xA909), (0xA9D0, 0xA9D9), (0xA9F0, 0xA9F9),
   (0xAA50, 0xAA59), (0xABF0, 0xABF9), (0xFF10, 0xFF19), (0x104A0, 0x104A9),
   (0x10A40, 0x10A43), (0x10D30, 0x10D39), (0x10E60, 0x10E68),
   (0x11052, 0x1105A), (0x11066, 0x1106F), (0x110F0, 0x110F9),
   (0x11136, 0x1113F), (0x111D0, 0x111D9), (0x112F0, 0x112F9),
   (0x11450, 0x11459), (0x114D0, 0x114D9), (0x11650, 0x11659),
   (0x116C0, 0x116C9), (0x11730, 0x11739), (0x118E0, 0x118E9),
   (0x11950, 0x11959), (0x11C50, 0x11C59), (0x11D50, 0x11D59),
   (0x11DA0, 0x11DA9), (0x16A60, 0x16A69), (0x16AC0, 0x16AC9),
   (0x16B50, 0x16B59), (0x1D7CE, 0x1D7FF), (0x1E140, 0x1E149),
   (0x1E2F0, 0x1E2F9), (0x1E950, 0x1E959), (0x1F100, 0x1F10A),
   (0x1FBF0, 0x1FBF9)]

/-- The Unicode code-point ranges of category Nd — what Python
`str.isdecimal()` accepts and what the `re` module's `\d` matches in a `str`
pattern (enumerated from CPython 3.11). -/
def pyDecimalRanges : List (Nat × Nat) :=
  [ (0x30, 0x39), (0x660, 0x669), (0x6F0, 0x6F9), (0x7C0, 0x7C9),
   (0x966, 0x96F), (0x9E6, 0x9EF), (0xA66, 0xA6F), (0xAE6, 0xAEF),
   (0xB66, 0xB6F), (0xBE6, 0xBEF), (0xC66, 0xC6F), (0xCE6, 0xCEF),
   (0xD66, 0xD6F), (0xDE6, 0xDEF), (0xE50, 0xE59), (0xED0, 0xED9),
   (0xF20, 0xF29), (0x1040, 0x1049), (0x1090, 0x1099), (0x17E0, 0x17E9),
   (0x1810, 0x1819), (0x1946, 0x194F), (0x19D0, 0x19D9), (0x1A80, 0x1A89),
   (0x1A90, 0x1A99), (0x1B50, 0x1B59), (0x1BB0, 0x1BB9), (0x1C40, 0x1C49),
   (0x1C50, 0x1C59), (0xA620, 0xA629), (0xA8D0, 0xA8D9), (0xA900, 0xA909),
   (0xA9D0, 0xA9D9), (0xA9F0, 0xA9F9), (0xAA50, 0xAA59), (0xABF0, 0xABF9),
   (0xFF10, 0xFF19), (0x104A0, 0x104A9), (0x10D30, 0x10D39),
   (0x11066, 0x1106F), (0x110F0, 0x110F9), (0x11136, 0x1113F),
   (0x111D0, 0x111D9), (0x112F0, 0x112F9), (0x11450, 0x11459),
   (0x114D0, 0x114D9), (0x11650, 0x11659), (0x116C0, 0x116C9),
   (0x11730, 0x11739), (0x118E0, 0x118E9), (0x11950, 0x11959),
   (0x11C50, 0x11C59), (0x11D50, 0x11D59), (0x11DA0, 0x11DA9),
   (0x16A60, 0x16A69), (0x16AC0, 0x16AC9), (0x16B50, 0x16B59),
   (0x1D7CE, 0x1D7FF), (0x1E140, 0x1E149), (0x1E2F0, 0x1E2F9),
   (0x1E950, 0x1E959), (0x1FBF0, 0x1FBF9)]

/-- Python `c.isdigit()` for a single character: membership in
`pyDigitRanges`.  Note this accepts non-ASCII digits such as `²` (U+00B2)
and `٢` (U+0662), unlike the ASCII `Char.isDigit`. -/
def pyIsDigit (c : Char) : Bool :=
  pyDigitRanges.any (fun r => r.1 ≤ c.toNat && c.toNat ≤ r.2)

/-- A character matched by `\d` in a Python `str` regex (Unicode decimal
digit, category Nd): membership in `pyDecimalRanges`. -/
def pyIsDecimal (c : Char) : Bool :=
  pyDecimalRanges.any (fun r => r.1 ≤ c.toNat && c.toNat ≤ r.2)

/-- Python `s.isdigit()`: non-empty and every character a Python digit. -/
def pyDigitsNonempty (l : List Char) : Bool := !l.isEmpty && l.all pyIsDigit

/-- `re.match(r'^[A-Za-z_][A-Za-z0-9_]*=', token)`: a leading environment
assignment `VAR=value`. -/
def isEnvAssignment (t : String) : Bool :=
  match t.toList with
  | [] => false
  | c :: rest =>
    (c.isAlpha || c = '_') &&
    ((rest.dropWhile (fun x => x.isAlphanum || x = '_')).head? = some '=')

/-- `re.match(r'^\d+[<>]{1,2}$', token)`: numeric fd redirection such as
`2>`, `1>>`, `0<` (`\d` is the Unicode decimal-digit class). -/
def isNumericRedir (t : String) : Bool :=
  let digits := t.toList.takeWhile pyIsDecimal
  let rest := t.toList.dropWhile pyIsDecimal
  !digits.isEmpty &&
  (rest.length = 1 || rest.length = 2) && rest.all (fun c => c = '<' || c = '>')

/-- `re.match(r'^\d+>{1,2}$', token)`: numeric output redirection such as
`2>` or `1>>` (used by `_has_unsafe_redirections`; `\d` is the Unicode
decimal-digit class). -/
def isNumericOutRedir (t : String) : Bool :=
  let digits := t.toList.takeWhile pyIsDecimal
  let rest := t.toList.dropWhile pyIsDecimal
  !digits.isEmpty && (rest = ['>'] || rest = ['>', '>'])

/-- `command_safety._is_redirection`. -/
def isRedirection (t : String) : Bool :=
  allRedirectOperators.contains t || isNumericRedir t ||
  t = ">&" || t = "<&" || t = ">|" || t = ">("

/-- `os.path.basename`: the part of the path after the last `/`. -/
def basenameStr (p : String) : String :=
  String.mk ((p.toList.reverse.takeWhile (fun c => c ≠ '/')).reverse)

/-- `command_safety._has_unsafe_redirections`: walk the token list; output
redirections are tolerated only towards `/dev/null` or another file
descriptor; `>(` is always unsafe.  The source's `while` loop advances by two
over a safe redirection (operator and target) and by one otherwise, returning
`True` as soon as an unsafe redirection is found. -/
def hasUnsafeRedirections : List String → Bool
  | [] => false
  | t :: rest =>
    if t = ">(" then true
    else if outputRedirectOperators.contains t then
      match rest with
      | next :: rest2 =>
        if next = "/dev/null" then hasUnsafeRedirections rest2
        else if t = ">" &&
            (match next.toList with
             | '&' :: fdPart => pyDigitsNonempty fdPart
             | _ => false) then
          hasUnsafeRedirections rest2
        else true
      | [] => true
    else if t = ">&" then
      match rest with
      | next :: rest2 =>
        if pyDigitsNonempty next.toList then hasUnsafeRedirections rest2
        else if next = "/dev/null" then hasUnsafeRedirections rest2
        else true
      | [] => true
    else if isNumericOutRedir t then
      match rest with
      | next :: rest2 =>
        if next = "/dev/null" then hasUnsafeRedirections rest2 else true
      | [] => true
    else hasUnsafeRedirections rest

/-- Scanner state of `_extract_command_names`: `expect` is the loop head with
`expect_command = True` (equivalently, inside the benign-wrapper skip loop);
`assignCont` is inside the `VAR=value` skip loop (a wrapper is no longer
skipped there); `argMode` is `expect_command = False`. -/
inductive ScanMode where
  | expect
  | assignCont
  | argMode
  deriving Repr, DecidableEq

/-- The walk of `_extract_command_names`.  In `expect` mode, chain operators
and `)` are consumed; benign wrappers and then leading `VAR=value`
assignments are skipped; the next token is recorded as a command name unless
it is an operator, `)` or a redirection (in which case the walk keeps
expecting a command).  In `argMode`, a redirection operator additionally
skips its target (`i += 2` in the source). -/
def extractNamesGo : List String → ScanMode → List String
  | [], _ => []
  | t :: rest, .expect =>
    if commandStarters.contains t then extractNamesGo rest .expect
    else if t = ")" then extractNamesGo rest .expect
    else if benignCommandWrappers.contains t then extractNamesGo rest .expect
    else if isEnvAssignment t then extractNamesGo rest .assignCont
    else if isRedirection t then extractNamesGo rest .expect
    else t :: extractNamesGo rest .argMode
  | t :: rest, .assignCont =>
    if isEnvAssignment t then extractNamesGo rest .assignCont
    else if commandStarters.contains t then extractNamesGo rest .expect
    else if t = ")" then extractNamesGo rest .expect
    else if isRedirection t then extractNamesGo rest .expect
    else t :: extractNamesGo rest .argMode
  | t :: rest, .argMode =>
    if commandStarters.contains t then extractNamesGo rest .expect
    else if t = ")" then extractNamesGo rest .argMode
    else if isRedirection t then
      match rest with
      | [] => []
      | _ :: rest2 => extractNamesGo rest2 .argMode
    else extractNamesGo rest .argMode

/-- `command_safety._extract_command_names`. -/
def extractCommandNames (tokens : List String) : List String :=
  extractNamesGo tokens .expect

/-! ### Command substitutions -/

/-- The `$(...)` body scanner of `_extract_dollar_parens`: consume characters
tracking single/double quotes and parenthesis depth; on the `)` closing depth
1 return the consumed body and the remaining input. -/
def scanParen : List Char → Nat → Bool → Bool → Option (List Char × List Char)
  | [], _, _, _ => none
  | ch :: rest, depth, sq, dq =>
    if ch = '\'' && !dq then
      (scanParen rest depth (!sq) dq).map (fun p => (ch :: p.1, p.2))
    else if ch = '"' && !sq then
      (scanParen rest depth sq (!dq)).map (fun p => (ch :: p.1, p.2))
    else if !sq && !dq && ch = '(' then
      (scanParen rest (depth + 1) sq dq).map (fun p => (ch :: p.1, p.2))
    else if !sq && !dq && ch = ')' then
      if depth = 1 then some ([], rest)
      else (scanParen rest (depth - 1) sq dq).map (fun p => (ch :: p.1, p.2))
    else (scanParen rest depth sq dq).map (fun p => (ch :: p.1, p.2))

/-- `_extract_dollar_parens` (fuelled; each step consumes at least one input
character, so fuel `length + 1` can never be exhausted).  Faithful to the
source's quirk that its `in_single_quote` flag is never reset: after the
first top-level single quote the loop can never match `$(` again, so
extraction simply stops there.  On an unbalanced `$(` the scan consumes the
rest of the input and stops. -/
def extractDollarParensF : Nat → List Char → List (List Char)
  | 0, _ => []
  | _ + 1, [] => []
  | n + 1, c :: rest =>
    if c = '\'' then []
    else if c = '$' then
      match rest with
      | '(' :: rest2 =>
        match scanParen rest2 1 false false with
        | some (inner, rem) => inner :: extractDollarParensF n rem
        | none => []
      | _ => extractDollarParensF n rest
    else extractDollarParensF n rest

/-- `_extract_dollar_parens`. -/
def extractDollarParens (c : List Char) : List (List Char) :=
  extractDollarParensF (c.length + 1) c

/-- Split at the first occurrence of `target`: `some (before, after)`, or
`none` when absent. -/
def splitAtChar (target : Char) : List Char → Option (List Char × List Char)
  | [] => none
  | c :: rest =>
    if c = target then some ([], rest)
    else (splitAtChar target rest).map (fun p => (c :: p.1, p.2))

/-- The backtick half of `_extract_command_substitutions`:
`re.finditer(r'`([^`]+)`', command)`, keeping a match only when the number of
single quotes before its opening backtick is even (the source's rough
suppression of backticks inside single-quoted text).  `quoteCount` counts the
single quotes seen so far.  Fuelled like `extractDollarParensF`. -/
def extractBackticksF : Nat → List Char → Nat → List (List Char)
  | 0, _, _ => []
  | _ + 1, [], _ => []
  | n + 1, c :: rest, quoteCount =>
    if c = '`' then
      match splitAtChar '`' rest with
      | some (content, afterTick) =>
        if content.isEmpty then extractBackticksF n rest quoteCount
        else
          (if quoteCount % 2 = 0 then [content] else []) ++
          extractBackticksF n afterTick
            (quoteCount + (content.filter (fun x => x = '\'')).length)
      | none => []
    else extractBackticksF n rest (quoteCount + if c = '\'' then 1 else 0)

/-- Backtick substitutions of a command. -/
def extractBackticks (c : List Char) : List (List Char) :=
  extractBackticksF (c.length + 1) c 0

/-- `command_safety._extract_command_substitutions`: `$(...)` bodies first,
then backtick bodies. -/
def extractCommandSubstitutions (c : List Char) : List (List Char) :=
  extractDollarParens c ++ extractBackticks c

/-- `command_safety._check_safety` (fuelled; every extracted substitution is
strictly shorter than its host — see `length_lt_of_mem_extractCommandSubstitutions` —
so fuel `length + 1` can never be exhausted; exhausted fuel fails closed).
Step 1 recursively checks all command substitutions; step 2 tokenizes (an
unparseable command is unsafe); step 3 rejects unsafe output redirections;
step 4 extracts the command names (none extractable from a non-empty token
list is unsafe) and requires every basename to be in the safe set. -/
def checkSafetyF : Nat → List Char → List String → Bool
  | 0, _, _ => false
  | n + 1, c, safeCommands =>
    (extractCommandSubstitutions c).all (fun inner => checkSafetyF n inner safeCommands) &&
    (match shlexTokenizeL c with
     | none => false
     | some tokens =>
       if tokens.isEmpty then true
       else if hasUnsafeRedirections tokens then false
       else
         let commands := extractCommandNames tokens
         if commands.isEmpty then false
         else commands.all (fun cmd => safeCommands.contains (basenameStr cmd)))

/-- `command_safety.is_safe_command`: an empty or all-whitespace command is
safe; otherwise the stripped command is checked by `_check_safety` (any
internal error fails closed — in this embedding the only error source, an
unparseable command, is already `none` from the tokenizer). -/
def is_safe_command (command : String) (safe_commands : List String) : Bool :=
  if pyStrip command = "" then true
  else
    checkSafetyF ((pyStrip command).toList.length + 1) (pyStrip command).toList safe_commands

/-- C3: with default parameters, `auto_truncate` returns the content
unchanged (`was_truncated = false`, original `none`) unless the content has
more than 10 000 characters and more than 100 lines; when it does truncate,
the visible text is exactly the first 50 lines, then the marker
`... [N lines omitted - use context_untruncate to view full output] ...`
(set off by blank lines) with `N` the total line count minus 100, then
exactly the last 50 lines; `was_truncated = true` and the untouched original
content is returned as the third component. -/
theorem autoTruncate_default_spec (content : String) :
    (¬(10000 < content.length ∧ 100 < (pySplitNl content).length) →
      autoTruncate content = (content, false, none)) ∧
    (10000 < content.length → 100 < (pySplitNl content).length →
      autoTruncate content =
        (String.intercalate "\n" ((pySplitNl content).take 50) ++
          "\n\n... [" ++ toString ((pySplitNl content).length - 100) ++
          " lines omitted - use context_untruncate to view full output] ...\n\n" ++
          String.intercalate "\n"
            ((pySplitNl content).drop ((pySplitNl content).length - 50)),
          true, some content)) := by
  constructor
  · intro h
    unfold autoTruncate
    by_cases h1 : content.length ≤ 10000
    · simp [h1]
    · have h2 : (pySplitNl content).length ≤ 100 := by
        by_contra hc
        exact h ⟨by omega, by omega⟩
      have hne : content ≠ "" := by
        intro he
        rw [he] at h1
        exact h1 (by simp)
      simp [h1, h2, hne]
  · intro h1 h2
    have hne : content ≠ "" := by
      intro he
      rw [he] at h1
      simp at h1
    unfold autoTruncate
    simp only [Option.getD_none]
    rw [if_neg (by simp [hne]; omega)]
    rw [if_neg (by simp; omega)]
    have harith : (pySplitNl content).length - 50 - 50 = (pySplitNl content).length - 100 := by
      omega
    simp [harith]

/-- C3 witness: a two-line content below the threshold is returned
unchanged. -/
theorem autoTruncate_default_spec_witness :
    autoTruncate "line one\nline two" = ("line one\nline two", false, none) :=
  (autoTruncate_default_spec "line one\nline two").1 (by decide)

/-- C4: on a prunable payload message whose state is `pruned`, both
`distill` on its id and `untruncate` on its id fail with `none`, and the
payload — in particular the message's content, state and original content —
is left entirely unchanged. -/
theorem distill_untruncate_fail_on_pruned (payload : List Msg) (msgId : Nat)
    (summary : String)
    (h : ∀ m ∈ payload, m.msgId = some msgId → m.prunable = true → m.state = "pruned") :
    distill payload msgId summary = (none, payload) ∧
    untruncate payload msgId = (none, payload) := by
  induction payload with
  | nil => simp [distill, untruncate]
  | cons m rest ih =>
    have hrest := ih (fun m2 hm2 => h m2 (List.mem_cons_of_mem m hm2))
    by_cases hm : m.msgId = some msgId ∧ m.prunable
    · have hpruned : m.state = "pruned" :=
        h m (List.mem_cons_self m rest) hm.1 hm.2
      constructor
      · unfold distill
        rw [if_pos hm, if_pos hpruned]
      · unfold untruncate
        rw [if_pos hm]
        rw [if_pos (by simp [hpruned])]
    · constructor
      · unfold distill
        rw [if_neg hm]
        simp [hrest.1]
      · unfold untruncate
        rw [if_neg hm]
        simp [hrest.2]

/-- C4 witness: a concrete pruned message rejects both operations. -/
theorem distill_untruncate_fail_on_pruned_witness :
    distill [{ role := "user", content := "[PRUNED] Command output: ls",
               msgId := some 1, prunable := true, state := "pruned",
               originalContent := some "full output", label := "Command output: ls" }] 1 "s"
      = (none, [{ role := "user", content := "[PRUNED] Command output: ls",
                  msgId := some 1, prunable := true, state := "pruned",
                  originalContent := some "full output", label := "Command output: ls" }]) ∧
    untruncate [{ role := "user", content := "[PRUNED] Command output: ls",
                  msgId := some 1, prunable := true, state := "pruned",
                  originalContent := some "full output", label := "Command output: ls" }] 1
      = (none, [{ role := "user", content := "[PRUNED] Command output: ls",
                  msgId := some 1, prunable := true, state := "pruned",
                  originalContent := some "full output", label := "Command output: ls" }]) :=
  distill_untruncate_fail_on_pruned _ 1 "s" (by decide)

/-- Auxiliary: a truncating run of `auto_truncate` always hands back the
untouched original, which is necessarily non-empty. -/
theorem autoTruncate_truncated_original (content visible : String)
    (orig : Option String) (h : autoTruncate content = (visible, true, orig)) :
    orig = some content ∧ content ≠ "" := by
  unfold autoTruncate at h
  simp only [Option.getD_none] at h
  by_cases h1 : (decide (content = "") || decide (content.length ≤ 10000)) = true
  · rw [if_pos h1] at h
    simp only [Prod.mk.injEq] at h
    exact absurd h.2.1 (by simp)
  · rw [if_neg h1] at h
    by_cases h2 : (pySplitNl content).length ≤ 50 + 50
    · rw [if_pos h2] at h
      simp only [Prod.mk.injEq] at h
      exact absurd h.2.1 (by simp)
    · rw [if_neg h2] at h
      simp only [Prod.mk.injEq] at h
      simp only [Bool.or_eq_true, decide_eq_true_eq, not_or] at h1
      exact ⟨h.2.2.symm, h1.1⟩

/-- C5: round-trip of truncation.  If `auto_truncate` (default parameters)
truncated `content`, and a payload holds a prunable message carrying the
truncated text with state `truncated` and the original stashed in
`original_content` (and no earlier message shadows its id), then
`untruncate` on its id succeeds and restores the content to the original
exactly, with state back to `normal`; and `untruncate` fails, changing
nothing, whenever every message matching the id has a state other than
`truncated`. -/
theorem untruncate_roundtrip :
    (∀ (content visible : String) (orig : Option String) (pre post : List Msg)
       (msgId : Nat) (m : Msg),
      autoTruncate content = (visible, true, orig) →
      m.msgId = some msgId → m.prunable = true → m.state = "truncated" →
      m.originalContent = orig →
      (∀ m2 ∈ pre, ¬(m2.msgId = some msgId ∧ m2.prunable = true)) →
      untruncate (pre ++ m :: post) msgId =
        (some (msgId, m.label),
         pre ++ { m with content := content, originalContent := none,
                         state := "normal" } :: post)) ∧
    (∀ (payload : List Msg) (msgId : Nat),
      (∀ m ∈ payload, m.msgId = some msgId → m.prunable = true → m.state ≠ "truncated") →
      untruncate payload msgId = (none, payload)) := by
  constructor
  · intro content visible orig pre post msgId m htr hid hpr hst horig hpre
    obtain ⟨horig2, hne⟩ := autoTruncate_truncated_original content visible orig htr
    subst horig2
    induction pre with
    | nil =>
      simp only [List.nil_append]
      unfold untruncate
      rw [if_pos ⟨hid, hpr⟩, if_neg (by simp [hst])]
      rw [horig]
      simp [hne]
    | cons p pre2 ih =>
      have hp : ¬(p.msgId = some msgId ∧ p.prunable = true) :=
        hpre p (List.mem_cons_self p pre2)
      have ih2 := ih (fun m2 hm2 => hpre m2 (List.mem_cons_of_mem p hm2))
      simp only [List.cons_append]
      unfold untruncate
      rw [if_neg (by simpa using hp)]
      simp [ih2]
  · intro payload msgId h
    induction payload with
    | nil => simp [untruncate]
    | cons m rest ih =>
      have hrest := ih (fun m2 hm2 => h m2 (List.mem_cons_of_mem m hm2))
      by_cases hm : m.msgId = some msgId ∧ m.prunable
      · have := h m (List.mem_cons_self m rest) hm.1 hm.2
        unfold untruncate
        rw [if_pos hm, if_pos this]
      · unfold untruncate
        rw [if_neg hm]
        simp [hrest]

/-- C5 witness: `untruncate` on a message in state `normal` fails. -/
theorem untruncate_roundtrip_witness :
    untruncate [{ role := "user", content := "short", msgId := some 1,
                  prunable := true, state := "normal", originalContent := none,
                  label := "x" }] 1
      = (none, [{ role := "user", content := "short", msgId := some 1,
                  prunable := true, state := "normal", originalContent := none,
                  label := "x" }]) :=
  untruncate_roundtrip.2 _ 1 (by decide)

/-- Auxiliary: sequential `assign_metadata` from counter `n` stamps the ids
`n, n+1, …` in order and leaves the counter past them. -/
theorem assignMetadataAll_ids (msgs : List Msg) :
    ∀ n : Nat,
      (assignMetadataAll n msgs).1.map Msg.msgId = (List.range' n msgs.length).map some ∧
      (assignMetadataAll n msgs).2 = n + msgs.length := by
  induction msgs with
  | nil => intro n; simp [assignMetadataAll]
  | cons m rest ih =>
    intro n
    have := ih (n + 1)
    unfold assignMetadataAll
    simp only [assignMetadata, List.length_cons, List.range'_succ, List.map_cons]
    refine ⟨?_, ?_⟩
    · simp [this.1]
    · simp [this.2]; omega

/-- Auxiliary: the running maximum in `restore_ids_from_saved` dominates
every id present in the payload. -/
theorem foldl_max_ge (payload : List Msg) :
    ∀ a : Nat, a ≤ payload.foldl (fun acc m => max acc (m.msgId.getD 0)) a ∧
      ∀ m ∈ payload, m.msgId.getD 0 ≤ payload.foldl (fun acc m => max acc (m.msgId.getD 0)) a := by
  induction payload with
  | nil => intro a; simp
  | cons m rest ih =>
    intro a
    have h1 := ih (max a (m.msgId.getD 0))
    constructor
    · calc a ≤ max a (m.msgId.getD 0) := le_max_left _ _
        _ ≤ _ := by simpa [List.foldl_cons] using h1.1
    · intro m2 hm2
      rcases List.mem_cons.mp hm2 with h | h
      · subst h
        calc m2.msgId.getD 0 ≤ max a (m2.msgId.getD 0) := le_max_right _ _
          _ ≤ _ := by simpa [List.foldl_cons] using h1.1
      · simpa [List.foldl_cons] using h1.2 m2 h

/-- C6: message ids assigned by `assign_metadata` within one session are the
consecutive integers starting at the initial counter value 1 — hence unique
and strictly increasing with insertion order — and for every loaded payload,
`restore_ids_from_saved` yields a next id strictly greater than every
`msg_id` present in that payload. -/
theorem msgId_monotonic_and_restore :
    (∀ msgs : List Msg,
      (assignMetadataAll 1 msgs).1.map Msg.msgId = (List.range' 1 msgs.length).map some) ∧
    (∀ (payload : List Msg) (m : Msg) (i : Nat),
      m ∈ payload → m.msgId = some i → i < restoreIdsFromSaved payload) := by
  constructor
  · intro msgs
    exact (assignMetadataAll_ids msgs 1).1
  · intro payload m i hm hid
    unfold restoreIdsFromSaved
    have := (foldl_max_ge payload 0).2 m hm
    rw [hid] at this
    simp only [Option.getD_some] at this
    omega

/-- C6 witness: a concrete two-message batch gets ids 1, 2, and restoring
from a payload holding id 7 yields a strictly larger next id. -/
theorem msgId_monotonic_and_restore_witness :
    (assignMetadataAll 1 [{ role := "user", content := "a" },
                          { role := "user", content := "b" }]).1.map Msg.msgId
        = [some 1, some 2] ∧
    7 < restoreIdsFromSaved [{ role := "user", content := "a", msgId := some 7 }] := by
  constructor
  · have := msgId_monotonic_and_restore.1
      [{ role := "user", content := "a" }, { role := "user", content := "b" }]
    simpa using this
  · exact msgId_monotonic_and_restore.2
      [{ role := "user", content := "a", msgId := some 7 }]
      { role := "user", content := "a", msgId := some 7 } 7 (by simp) rfl

/-- C2 counterexample: after exactly three consecutive multiple-actions
violations the conversation is NOT reset — the payload holds the system
prompt plus the three corrective messages (the reset only fires on the
fourth violation, when `rejudge_count` exceeds 3). -/
theorem three_violations_do_not_reset :
    (handleMultipleActions 2 (handleMultipleActions 2 (handleMultipleActions 2
      { sysPrompt := "SYS", payload := [mkSystemMsg "SYS"], ctxNextId := 1,
        rejudge := false, rejudgeCount := 0 }))).payload.length = 4 ∧
    (handleMultipleActions 2 (handleMultipleActions 2 (handleMultipleActions 2
      { sysPrompt := "SYS", payload := [mkSystemMsg "SYS"], ctxNextId := 1,
        rejudge := false, rejudgeCount := 0 }))).rejudgeCount = 3 ∧
    (handleMultipleActions 2 (handleMultipleActions 2 (handleMultipleActions 2
      { sysPrompt := "SYS", payload := [mkSystemMsg "SYS"], ctxNextId := 1,
        rejudge := false, rejudgeCount := 0 }))).payload ≠ [mkSystemMsg "SYS"] := by
  decide

/-- C2 (amended): on a reply with more than one tool block the handler
appends exactly one corrective user-role system message and re-enters the
model call (`rejudge = true`); on the fourth consecutive violation — when
the incremented counter exceeds 3 — the conversation is instead reset,
leaving the payload equal to just the system prompt, with the rejudge flag
and counter cleared and the context-manager ids reset. -/
theorem handleMultipleActions_spec (st : AppState) (total : Nat)
    (_htotal : 1 < total) :
    (st.rejudgeCount + 1 ≤ 3 →
      handleMultipleActions total st =
        { st with
            payload := st.payload ++
              [(assignMetadata st.ctxNextId
                  { role := "user", content := multipleActionsMessage total }
                  (some "Multiple actions error")).1]
            ctxNextId := st.ctxNextId + 1
            rejudge := true
            rejudgeCount := st.rejudgeCount + 1 }) ∧
    (3 ≤ st.rejudgeCount →
      (handleMultipleActions total st).payload = [mkSystemMsg st.sysPrompt] ∧
      (handleMultipleActions total st).rejudge = false ∧
      (handleMultipleActions total st).rejudgeCount = 0 ∧
      (handleMultipleActions total st).ctxNextId = 1) := by
  constructor
  · intro h
    have hc : ¬ 3 < st.rejudgeCount + 1 := by omega
    simp [handleMultipleActions, assignMetadata, hc]
  · intro h
    have hc : 3 < st.rejudgeCount + 1 := by omega
    simp [handleMultipleActions, assignMetadata, hc]

/-- C2 witness: a first violation on a fresh state appends the corrective
message and re-enters the model call. -/
theorem handleMultipleActions_spec_witness :
    handleMultipleActions 2
        { sysPrompt := "SYS", payload := [mkSystemMsg "SYS"], ctxNextId := 1,
          rejudge := false, rejudgeCount := 0 } =
      { sysPrompt := "SYS",
        payload := [mkSystemMsg "SYS"] ++
          [(assignMetadata 1
              { role := "user", content := multipleActionsMessage 2 }
              (some "Multiple actions error")).1]
        ctxNextId := 2
        rejudge := true
        rejudgeCount := 1 } :=
  (handleMultipleActions_spec
    { sysPrompt := "SYS", payload := [mkSystemMsg "SYS"], ctxNextId := 1,
      rejudge := false, rejudgeCount := 0 } 2 (by decide)).1 (by decide)

/-- A concrete environment for C7: the cached directory no longer exists on
disk, the process itself still sits in `/root`, and everything else
succeeds. -/
def staleCacheEnv : ExecEnv :=
  { openptyOk := true
    startCwdValid := false
    osCwd := "/root"
    popenOk := true
    probeResult := none
    dirExists := fun _ => false }

/-- C7 counterexample: executing plain `ls` — no `cd`/`pushd`/`popd` token
and no `sudo` — still mutates the cached logical cwd when the cached
directory has disappeared, because `execute_command` falls back to
`os.getcwd()` before launching the process. -/
theorem stale_cache_changes_cwd :
    executeCommandCwd "ls" "/tmp/gone" staleCacheEnv = "/root" ∧
    ("/root" : String) ≠ "/tmp/gone" ∧
    (pySplit (pyStrip "ls")).all (fun w => !(dirChangingCommands.contains w)) = true ∧
    "sudo".toList.isPrefixOf (pyStrip "ls").toList = false := by
  decide

/-- C7 (amended): provided the cached directory still exists (so the
stale-cache fallback does not fire), the cached logical cwd is unchanged by
`execute_command` unless some whitespace-separated token of the command is
one of `cd`, `pushd`, `popd` and the stripped command does not start with
`sudo` (the privilege prefix the executor checks); in particular any
`sudo`-prefixed command — such as `sudo cd /root` — leaves the cwd
unchanged. -/
theorem executeCommandCwd_unchanged (command cached : String) (env : ExecEnv)
    (hvalid : env.startCwdValid = true)
    (hcase : "sudo".toList.isPrefixOf (pyStrip command).toList = true ∨
      (pySplit (pyStrip command)).any (fun w => dirChangingCommands.contains w) = false) :
    executeCommandCwd command cached env = cached := by
  by_cases h0 : pyStrip command = ""
  · simp [executeCommandCwd, h0]
  · cases hop : env.openptyOk with
    | false => simp [executeCommandCwd, h0, hop]
    | true =>
      cases hpo : env.popenOk with
      | false => simp [executeCommandCwd, h0, hop, hpo, hvalid]
      | true =>
        rcases hcase with hsudo | hnod
        · have hsudo2 : ['s', 'u', 'd', 'o'].isPrefixOf (pyStrip command).data = true := hsudo
          simp [executeCommandCwd, h0, hop, hpo, hvalid, hsudo2]
        · simp [executeCommandCwd, h0, hop, hpo, hvalid]
          intro _ x hx hxmem
          exfalso
          exact (List.any_eq_false.mp hnod x hx) (List.elem_eq_true_of_mem hxmem)

/-- C7 (amended): provided the cached directory still exists (so the
stale-cache fallback does not fire), the cached logical cwd is unchanged by
`execute_command` unless some whitespace-separated token of the command is
one of `cd`, `pushd`, `popd` and the stripped command does not start with
`sudo` (the privilege prefix the executor checks); in particular any
`sudo`-prefixed command — such as `sudo cd /root` — leaves the cwd
unchanged. -/
theorem executeCommandCwd_frame (command cached : String) (env : ExecEnv)
    (hvalid : env.startCwdValid = true) :
    (executeCommandCwd command cached env ≠ cached →
      (∃ w ∈ pySplit (pyStrip command), w ∈ dirChangingCommands) ∧
      "sudo".toList.isPrefixOf (pyStrip command).toList = false) ∧
    ("sudo".toList.isPrefixOf (pyStrip command).toList = true →
      executeCommandCwd command cached env = cached) := by
  constructor
  · intro hne
    have hsudoF : "sudo".toList.isPrefixOf (pyStrip command).toList = false := by
      by_cases h3 : "sudo".toList.isPrefixOf (pyStrip command).toList = true
      · exact absurd (executeCommandCwd_unchanged command cached env hvalid (Or.inl h3)) hne
      · exact eq_false_of_ne_true h3
    have hany : (pySplit (pyStrip command)).any
        (fun w => dirChangingCommands.contains w) = true := by
      by_cases h4 : (pySplit (pyStrip command)).any
          (fun w => dirChangingCommands.contains w) = false
      · exact absurd (executeCommandCwd_unchanged command cached env hvalid (Or.inr h4)) hne
      · exact eq_true_of_ne_false h4
    refine ⟨?_, hsudoF⟩
    rw [List.any_eq_true] at hany
    obtain ⟨w, hw, hw2⟩ := hany
    exact ⟨w, hw, by simpa using hw2⟩
  · intro hsudo
    exact executeCommandCwd_unchanged command cached env hvalid (Or.inl hsudo)

/-- C7 witness: with a valid cached directory and a probe that reports
`/tmp`, `cd /tmp` changes the cached cwd only because it carries a
directory-changing token and no `sudo`. -/
theorem executeCommandCwd_frame_witness :
    (∃ w ∈ pySplit (pyStrip "cd /tmp"), w ∈ dirChangingCommands) ∧
    "sudo".toList.isPrefixOf (pyStrip "cd /tmp").toList = false :=
  (executeCommandCwd_frame "cd /tmp" "/home/u"
      { openptyOk := true, startCwdValid := true, osCwd := "/home/u",
        popenOk := true, probeResult := some (0, "/tmp\n"),
        dirExists := fun d => d = "/tmp" }
      rfl).1 (by decide)

/-- A concrete incognito manager with a non-empty conversation, for C8. -/
def incognitoMgr : ConvMgr :=
  { incognito := true
    autoSaveInterval := 5
    maxRecent := 10
    interactionCount := 0
    session :=
      { id := "session_1"
        startedAt := "t0"
        lastUpdated := "t0"
        payload := [{ role := "user", content := "hi" }]
        originalRequest := "hi"
        status := "active"
        summary := "hi"
        lastUsed := "t0" } }

/-- C8: in incognito mode the three guarded persistence operations
(auto-save, move-to-recent, named save) indeed write nothing — but
`archive_conversation` has no incognito guard and still writes the session
to `archive/<session-id>.json`, contradicting the invariant that an
incognito session is never persisted. -/
theorem incognito_archive_still_writes :
    incognitoMgr.incognito = true ∧
    autoSave incognitoMgr = [] ∧
    moveToRecent incognitoMgr "t1" = [] ∧
    (saveConversation incognitoMgr "name" false true "t1").2 = [] ∧
    (archiveConversation incognitoMgr "session_2" "t1").2.2 =
      [.archive "session_1.json" { incognitoMgr.session with status := "archived" }] := by
  decide

/-- C9 counterexample: with no configured value, `auto_save_interval` is 5
(not 1), and the first call to `update_payload` does not write the active
session file. -/
theorem first_updatePayload_does_not_write :
    (mkConvMgr none none "session_1" "t0").autoSaveInterval = 5 ∧
    (updatePayload (mkConvMgr none none "session_1" "t0")
        [{ role := "user", content := "hi" }] "hi" "t1").2 = [] := by
  decide

/-- C9 (amended): outside incognito mode, `update_payload` writes the active
session file exactly when the bumped interaction count is a multiple of the
configured `auto_save_interval`, whose default — with no configured value —
is 5: one auto-save every five interactions. -/
theorem updatePayload_autosave_spec (m : ConvMgr) (payload : List Msg)
    (originalRequest now : String) (hincog : m.incognito = false) :
    (updatePayload m payload originalRequest now).1.interactionCount
        = m.interactionCount + 1 ∧
    ((m.interactionCount + 1) % m.autoSaveInterval = 0 →
      (updatePayload m payload originalRequest now).2 =
        [.active (updatePayload m payload originalRequest now).1.session]) ∧
    ((m.interactionCount + 1) % m.autoSaveInterval ≠ 0 →
      (updatePayload m payload originalRequest now).2 = []) ∧
    (mkConvMgr none none "sid" "t").autoSaveInterval = 5 := by
  refine ⟨?_, ?_, ?_, by decide⟩
  · by_cases h : (m.interactionCount + 1) % m.autoSaveInterval = 0 <;>
      simp [updatePayload, h]
  · intro h
    simp [updatePayload, h, autoSave, hincog]
  · intro h
    simp [updatePayload, h]

/-- C9 witness: with the default interval 5, the fifth interaction
auto-saves. -/
theorem updatePayload_autosave_spec_witness :
    (updatePayload
        { mkConvMgr none none "session_1" "t0" with interactionCount := 4 }
        [{ role := "user", content := "hi" }] "hi" "t5").2 =
      [.active (updatePayload
        { mkConvMgr none none "session_1" "t0" with interactionCount := 4 }
        [{ role := "user", content := "hi" }] "hi" "t5").1.session] :=
  ((updatePayload_autosave_spec
      { mkConvMgr none none "session_1" "t0" with interactionCount := 4 }
      [{ role := "user", content := "hi" }] "hi" "t5" (by decide)).2.1) (by decide)

/-- C10: a command that is empty or consists only of whitespace is classified
as safe by `is_safe_command` for every allow-list (and would therefore be
auto-approved without user confirmation). -/
theorem is_safe_command_empty (command : String) (safe_commands : List String)
    (h : pyStrip command = "") : is_safe_command command safe_commands = true := by
  unfold is_safe_command
  rw [if_pos h]

/-- C10 witness: a whitespace-only command is safe even for the empty
allow-list. -/
theorem is_safe_command_empty_witness :
    is_safe_command "  \t " [] = true :=
  is_safe_command_empty "  \t " [] (by decide)

/-! ### Fuel adequacy of the substitution extraction

Every command substitution extracted from a command is strictly shorter than
the command, so the `length + 1` fuel of `extractDollarParensF`,
`extractBackticksF`, `checkSafetyF` and `commandUnitsF` can never be
exhausted. -/

theorem scanParen_cons_length_aux {c : Char} {rest : List Char} {d : Nat}
    {sq dq : Bool} {inner rem : List Char}
    (ih : ∀ depth sq dq inner rem, scanParen rest depth sq dq = some (inner, rem) →
      inner.length + rem.length + 1 ≤ rest.length)
    (h : (scanParen rest d sq dq).map (fun p => (c :: p.1, p.2)) = some (inner, rem)) :
    inner.length + rem.length + 1 ≤ rest.length + 1 := by
  rw [Option.map_eq_some'] at h
  obtain ⟨⟨i2, r2⟩, hrec, hpair⟩ := h
  simp only [Prod.mk.injEq] at hpair
  obtain ⟨hi, hr⟩ := hpair
  subst hi; subst hr
  have := ih _ _ _ _ _ hrec
  simp only [List.length_cons]
  omega

theorem scanParen_length :
    ∀ (l : List Char) (depth : Nat) (sq dq : Bool) (inner rem : List Char),
      scanParen l depth sq dq = some (inner, rem) →
      inner.length + rem.length + 1 ≤ l.length := by
  intro l
  induction l with
  | nil => intro depth sq dq inner rem h; simp [scanParen] at h
  | cons c rest ih =>
    intro depth sq dq inner rem h
    unfold scanParen at h
    split_ifs at h with h1 h2 h3 h4 h5
    · simpa using scanParen_cons_length_aux ih h
    · simpa using scanParen_cons_length_aux ih h
    · simpa using scanParen_cons_length_aux ih h
    · simp only [Option.some.injEq, Prod.mk.injEq] at h
      obtain ⟨hi, hr⟩ := h
      subst hi; subst hr
      simp
    · simpa using scanParen_cons_length_aux ih h
    · simpa using scanParen_cons_length_aux ih h

theorem splitAtChar_length :
    ∀ (l : List Char) (target : Char) (before after : List Char),
      splitAtChar target l = some (before, after) →
      before.length + after.length + 1 = l.length := by
  intro l target
  induction l with
  | nil => intro before after h; simp [splitAtChar] at h
  | cons c rest ih =>
    intro before after h
    unfold splitAtChar at h
    split_ifs at h with h1
    · simp only [Option.some.injEq, Prod.mk.injEq] at h
      obtain ⟨hb, ha⟩ := h
      subst hb; subst ha
      simp
    · rw [Option.map_eq_some'] at h
      obtain ⟨⟨b2, a2⟩, hrec, hpair⟩ := h
      simp only [Prod.mk.injEq] at hpair
      obtain ⟨hb, ha⟩ := hpair
      subst hb; subst ha
      have := ih _ _ hrec
      simp only [List.length_cons]
      omega

theorem length_lt_of_mem_extractDollarParensF :
    ∀ (n : Nat) (c u : List Char), u ∈ extractDollarParensF n c →
      u.length + 3 ≤ c.length := by
  intro n
  induction n with
  | zero => intro c u hu; simp [extractDollarParensF] at hu
  | succ n ih =>
    intro c u hu
    match c with
    | [] => simp [extractDollarParensF] at hu
    | ch :: rest =>
      unfold extractDollarParensF at hu
      by_cases h1 : ch = '\''
      · rw [if_pos h1] at hu; simp at hu
      · rw [if_neg h1] at hu
        by_cases h2 : ch = '$'
        · rw [if_pos h2] at hu
          match rest with
          | [] => cases n <;> simp [extractDollarParensF] at hu
          | c2 :: rest2 =>
            by_cases hc2 : c2 = '('
            · subst hc2
              simp only at hu
              cases hscan : scanParen rest2 1 false false with
              | none => rw [hscan] at hu; simp at hu
              | some p =>
                obtain ⟨inner2, rem2⟩ := p
                rw [hscan] at hu
                have hsc := scanParen_length rest2 1 false false inner2 rem2 hscan
                rcases List.mem_cons.mp hu with rfl | hu2
                · simp only [List.length_cons]
                  omega
                · have := ih rem2 u hu2
                  simp only [List.length_cons]
                  omega
            · have hmatch : (match (c2 :: rest2 : List Char) with
                  | '(' :: r =>
                    match scanParen r 1 false false with
                    | some (inner, rem) => inner :: extractDollarParensF n rem
                    | none => []
                  | _ => extractDollarParensF n (c2 :: rest2)) =
                    extractDollarParensF n (c2 :: rest2) := by
                split
                · rename_i heq
                  injection heq with h3 h4
                  exact absurd h3 hc2
                · rfl
              rw [hmatch] at hu
              have := ih _ u hu
              simp only [List.length_cons] at this ⊢
              omega
        · rw [if_neg h2] at hu
          have := ih rest u hu
          simp only [List.length_cons]
          omega

theorem length_lt_of_mem_extractBackticksF :
    ∀ (n : Nat) (c : List Char) (q : Nat) (u : List Char),
      u ∈ extractBackticksF n c q → u.length + 2 ≤ c.length := by
  intro n
  induction n with
  | zero => intro c q u hu; simp [extractBackticksF] at hu
  | succ n ih =>
    intro c q u hu
    match c with
    | [] => simp [extractBackticksF] at hu
    | ch :: rest =>
      unfold extractBackticksF at hu
      by_cases h1 : ch = '`'
      · rw [if_pos h1] at hu
        cases hsplit : splitAtChar '`' rest with
        | none => rw [hsplit] at hu; simp at hu
        | some p =>
          obtain ⟨content, afterTick⟩ := p
          rw [hsplit] at hu
          have hlen := splitAtChar_length rest '`' content afterTick hsplit
          simp only at hu
          by_cases hemp : content.isEmpty
          · rw [if_pos hemp] at hu
            have := ih rest q u hu
            simp only [List.length_cons]
            omega
          · rw [if_neg hemp] at hu
            rcases List.mem_append.mp hu with hu2 | hu2
            · have hueq : u = content := by
                by_cases hq : q % 2 = 0 <;> simp [hq] at hu2
                exact hu2
              subst hueq
              simp only [List.length_cons]
              omega
            · have := ih afterTick _ u hu2
              simp only [List.length_cons]
              omega
      · rw [if_neg h1] at hu
        have := ih rest _ u hu
        simp only [List.length_cons]
        omega

/-- Every command substitution extracted from a command is strictly shorter
than the command itself (so the recursion of `_check_safety` terminates and
the fuel of `checkSafetyF` is adequate). -/
theorem length_lt_of_mem_extractCommandSubstitutions (c u : List Char)
    (hu : u ∈ extractCommandSubstitutions c) : u.length < c.length := by
  rcases List.mem_append.mp hu with h | h
  · have := length_lt_of_mem_extractDollarParensF (c.length + 1) c u h
    omega
  · have := length_lt_of_mem_extractBackticksF (c.length + 1) c 0 u h
    omega

/-! ### C1: the safety classifier and output redirections

The spec states the guarantee in terms of the classifier's own re-walk of
the command: every sub-command unit re-tokenises, the walk produces only
allow-listed basenames, and no output redirection writes to a file.  The
predicate `outputRedirectionsSafeSpec` below renders "every
output-redirection target is `/dev/null` or a file descriptor"
independently of the two-step walk of `_has_unsafe_redirections` — but in
the classifier's own sense of "file descriptor", which tests the target
digits with Python `str.isdigit`.  That is wider than the ASCII numerals the
shell accepts as descriptors: `str.isdigit` also accepts characters such as
`²`, which bash reads as a file name, so the classifier approves commands
like `echo hi >&²` that do write a file.  `outputRedirectionsFileFree`
renders the original claim's stricter shell-level reading, used by the
counterexample below. -/

end AIShell
